import Mathlib

/-!
Verification of the CSV/XML → i14y JSON transformation core
(`AD_I14Y_transformator.py`): a shallow embedding of the data model,
the two parsers, the serializer and the orchestrator loop, together
with theorems settling the claims of the specification.

Conventions of the embedding:
* Python strings-or-None become `Option String` (`none` = Python `None`).
* Python truthiness of an optional string (`if x:`) is `truthyStr`.
* Exceptions raised by the Python code (IndexError on short rows,
  AttributeError on `None.strip()`) become `Except Unit _` errors.
* Python dicts built by insertion keep their insertion order; JSON
  objects are therefore ordered association lists.
* Environment-derived configuration (`Config`) is modelled by its
  documented default values (no environment overrides).
-/

namespace I14Y

/-- Defaults of `Config` (module `AD_I14Y_transformator`), as read when the
environment provides no override. -/
def PUBLISHER_IDENTIFIER : String := "CH_eHealth"

def PUBLISHER_NAME : String := "eHealth Suisse"

def DEFAULT_VALUE_TYPE : String := "String"

def DEFAULT_CONCEPT_TYPE : String := "CodeList"

def DEFAULT_VALUE_MAX_LENGTH : Nat := 30

def DEFAULT_PERIOD_START : String := "2024-06-01"

def DEFAULT_PERIOD_END : String := "2100-06-01"

def DEFAULT_RESPONSIBLE_EMAIL : String := "pero.grgic@e-health-suisse.ch"

def DEFAULT_RESPONSIBLE_SHORT_NAME : String := "PGR"

def DEFAULT_DEPUTY_EMAIL : String := "stefanie.neuenschwander@e-health-suisse.ch"

def DEFAULT_DEPUTY_SHORT_NAME : String := "SNE"

/-- `PublisherPersons.get_person`: the two configured short codes resolve to
contact records (modelled by their email), unknown keys to the empty record
(`none`). -/
def get_person (key : String) : Option String :=
  if key = DEFAULT_RESPONSIBLE_SHORT_NAME then some DEFAULT_RESPONSIBLE_EMAIL
  else if key = DEFAULT_DEPUTY_SHORT_NAME then some DEFAULT_DEPUTY_EMAIL
  else none

/-- JSON values as produced by `json.dump`: objects keep the (deterministic)
insertion order of the Python dicts they come from, hence ordered pair lists. -/
inductive Json where
  | null : Json
  | str : String → Json
  | num : Nat → Json
  | arr : List Json → Json
  | obj : List (String × Json) → Json

/-- A Python value that is a string or `None`, as a JSON value. -/
def jsonOfOpt : Option String → Json
  | none => .null
  | some s => .str s

/-- Python truthiness of a string-or-None: `None` and `""` are falsy. -/
def truthyStr : Option String → Bool
  | none => false
  | some s => s != ""

/-- The Python method `str.strip()`: drop whitespace from both ends. -/
def pyStrip (s : String) : String :=
  String.mk (((s.toList.dropWhile Char.isWhitespace).reverse.dropWhile
    Char.isWhitespace).reverse)

/-- Lookup of a key in a JSON object (first occurrence), `none` otherwise. -/
def objGet (j : Json) (k : String) : Option Json :=
  match j with
  | .obj kvs => (kvs.find? (fun kv => kv.1 == k)).map (fun kv => kv.2)
  | _ => none

/-- Lookup along a path of object keys. -/
def jpath (j : Json) : List String → Option Json
  | [] => some j
  | k :: ks =>
    match objGet j k with
    | some v => jpath v ks
    | none => none

/-! ### The canonical data model (classes `Code`, `CodeSystem`, `Period`,
`Synonym`, `concept` of the source). Defaults mirror the Python
constructors. -/

/-- Class `Code`. -/
structure Code where
  Code : Option String := some ""
  DisplayNameEN : Option String := some ""
  DisplayNameDE : Option String := some ""
  DisplayNameFR : Option String := some ""
  DisplayNameIT : Option String := some ""
  DisplayNameRM : Option String := some ""
  parentCode : Option String := none
  validFrom : Option String := none
deriving DecidableEq

/-- Class `CodeSystem`. -/
structure CodeSystem where
  Title : Option String := none
  Text_DE : Option String := none
  Text_FR : Option String := none
  Text_IT : Option String := none
  Text_EN : Option String := none
  Text_RM : Option String := none
  Identifier : Option String := none
deriving DecidableEq

/-- Class `Period`; its constructor takes the period type. -/
structure Period where
  Title : String
  Date : Option String := none
  Identifier : String
deriving DecidableEq

/-- `Period.__init__(period_type)`. -/
def Period.init (period_type : String) : Period :=
  { Title := period_type, Identifier := period_type }

/-- Class `Synonym`; the constructor fixes the SNOMED identifier from the
title ("Preferred" vs anything else). -/
structure Synonym where
  Title : String
  Text_DE : Option String := some ""
  Text_FR : Option String := some ""
  Text_IT : Option String := some ""
  Text_EN : Option String := some ""
  Text_RM : Option String := some ""
  identifier : String
deriving DecidableEq

/-- `Synonym.__init__(title)`. -/
def Synonym.init (title : String) : Synonym :=
  { Title := title,
    identifier :=
      if title = "Preferred" then "900000000000548007" else "900000000000549004" }

/-- Class `concept` (only the mutable per-file fields; the configuration
constants it also carries are read from `Config` at serialization time). -/
structure concept where
  descriptionDE : Option String := none
  descriptionEN : Option String := none
  descriptionFR : Option String := none
  descriptionIT : Option String := none
  descriptionRM : Option String := none
  id : Option String := none
  identifier : Option String := none
  name : Option String := none
  validFrom : Option String := none
deriving DecidableEq

/-- One element of `self.codeListEntries`: the 6-element list
`[code, codeSystem, periodStart, periodEnd, synonymPS, synonymAS]`.
The serializer reads index 5 defensively (`entry_list[5] if len > 5`),
hence the `Option` on `synonymAS`; both parsers always supply it. -/
structure EntryGroup where
  code : Code
  codeSystem : CodeSystem
  periodStart : Period
  periodEnd : Period
  synonymPS : Synonym
  synonymAS : Option Synonym
deriving DecidableEq

/-- The mutable state of an `AD_csv_to_i14y_json` instance (fields the
claims observe). -/
structure Transformer where
  concept : concept := {}
  codeListEntries : List EntryGroup := []
  new_concept : Bool
  validFrom : String
  version : String
  responsible_person : Option String
  deputy_person : Option String
  fileExtension : Option String := none
deriving DecidableEq

/-- The fallback `version or "1.0.0"` in `AD_csv_to_i14y_json.__init__`. -/
def versionOrDefault : Option String → String
  | none => "1.0.0"
  | some v => if v = "" then "1.0.0" else v

/-- `AD_csv_to_i14y_json.__init__`: fresh default concept, empty entry list,
caller-supplied flag/date/version, person records resolved by key. -/
def AD_init (responsible_key deputy_key : String) (validFrom : String)
    (new_concept : Bool) (version : Option String) : Transformer :=
  { new_concept := new_concept, validFrom := validFrom,
    version := versionOrDefault version,
    responsible_person := get_person responsible_key,
    deputy_person := get_person deputy_key }

/-! ### JSON serializer (`create_concept_output`,
`create_codeListEntries_output`) -/

/-- A resolved person record `{email: ...}` or the empty record. -/
def personJson : Option String → Json
  | none => .obj []
  | some email => .obj [("email", .str email)]

/-- `create_concept_output`. -/
def create_concept_output (c : concept) (responsible deputy : Option String)
    (version : String) : Json :=
  .obj [("data", .obj [
    ("codeListEntryValueMaxLength", .num DEFAULT_VALUE_MAX_LENGTH),
    ("codeListEntryValueType", .str DEFAULT_VALUE_TYPE),
    ("conceptType", .str DEFAULT_CONCEPT_TYPE),
    ("conformsTo", .arr []),
    ("description", .obj [
      ("de", jsonOfOpt c.descriptionDE),
      ("en", jsonOfOpt c.descriptionEN),
      ("fr", jsonOfOpt c.descriptionFR),
      ("it", jsonOfOpt c.descriptionIT)]),
    ("identifier", jsonOfOpt c.identifier),
    ("keywords", .arr []),
    ("name", .obj [
      ("de", jsonOfOpt c.name),
      ("en", jsonOfOpt c.name),
      ("fr", jsonOfOpt c.name),
      ("it", jsonOfOpt c.name)]),
    ("publisher", .obj [
      ("identifier", .str PUBLISHER_IDENTIFIER),
      ("name", .obj [
        ("de", .str PUBLISHER_NAME),
        ("en", .str PUBLISHER_NAME),
        ("fr", .str PUBLISHER_NAME),
        ("it", .str PUBLISHER_NAME)])]),
    ("responsiblePerson", personJson responsible),
    ("responsibleDeputy", personJson deputy),
    ("themes", .arr []),
    ("validFrom", jsonOfOpt c.validFrom),
    ("version", .str version)])]

/-- The guard `if synonymAS.Text_X and synonymAS.Text_X.strip():` used when
building the `text` dict of the Acceptable designation. -/
def keepText : Option String → Bool
  | none => false
  | some s => s != "" && pyStrip s != ""

/-- The `text_dict` built for the Acceptable designation: only languages
with a truthy, non-blank text survive, with their untrimmed value. -/
def acceptableTextDict (s : Synonym) : List (String × Json) :=
  (if keepText s.Text_DE then [("de", jsonOfOpt s.Text_DE)] else []) ++
  (if keepText s.Text_EN then [("en", jsonOfOpt s.Text_EN)] else []) ++
  (if keepText s.Text_FR then [("fr", jsonOfOpt s.Text_FR)] else []) ++
  (if keepText s.Text_IT then [("it", jsonOfOpt s.Text_IT)] else []) ++
  (if keepText s.Text_RM then [("rm", jsonOfOpt s.Text_RM)] else [])

/-- The Acceptable designation annotation appended when `text_dict` is
non-empty. -/
def acceptableAnnotJson (s : Synonym) : Json :=
  .obj [("identifier", .str s.identifier),
        ("text", .obj (acceptableTextDict s)),
        ("title", .str s.Title),
        ("type", .str "Designation")]

/-- The first element of the `annotations` array: the CodeSystem
annotation, whose `text` always lists all five languages. -/
def codeSystemAnnotJson (cs : CodeSystem) : Json :=
  .obj [("identifier", jsonOfOpt cs.Identifier),
        ("text", .obj [
          ("de", jsonOfOpt cs.Text_DE),
          ("en", jsonOfOpt cs.Text_EN),
          ("fr", jsonOfOpt cs.Text_FR),
          ("it", jsonOfOpt cs.Text_IT),
          ("rm", jsonOfOpt cs.Text_RM)]),
        ("title", jsonOfOpt cs.Title),
        ("type", .str "CodeSystem")]

/-- A Period annotation (used once for the end period, once for the start
period), English-only text. -/
def periodAnnotJson (p : Period) : Json :=
  .obj [("identifier", .str p.Identifier),
        ("text", .obj [("en", jsonOfOpt p.Date)]),
        ("title", .str p.Title),
        ("type", .str "Period")]

/-- The Preferred designation annotation, whose `text` always lists all
five languages. -/
def preferredAnnotJson (s : Synonym) : Json :=
  .obj [("identifier", .str s.identifier),
        ("text", .obj [
          ("de", jsonOfOpt s.Text_DE),
          ("en", jsonOfOpt s.Text_EN),
          ("fr", jsonOfOpt s.Text_FR),
          ("it", jsonOfOpt s.Text_IT),
          ("rm", jsonOfOpt s.Text_RM)]),
        ("title", .str s.Title),
        ("type", .str "Designation")]

/-- The unconditional head of the `annotations` array, in source order:
CodeSystem, Period(end), Period(start), Designation(Preferred). -/
def baseAnnotations (g : EntryGroup) : List Json :=
  [codeSystemAnnotJson g.codeSystem,
   periodAnnotJson g.periodEnd,
   periodAnnotJson g.periodStart,
   preferredAnnotJson g.synonymPS]

/-- The `annotations` array of one serialized codelist entry: the base
annotations, then conditionally the Acceptable designation. -/
def entryAnnotations (g : EntryGroup) : List Json :=
  match g.synonymAS with
  | none => baseAnnotations g
  | some s =>
    if (acceptableTextDict s).isEmpty then baseAnnotations g
    else baseAnnotations g ++ [acceptableAnnotJson s]

/-- One serialized codelist entry (`json_entry`); `parentCode` is appended
last only when truthy. -/
def entryJson (g : EntryGroup) : Json :=
  let base : List (String × Json) := [
    ("annotations", .arr (entryAnnotations g)),
    ("code", jsonOfOpt g.code.Code),
    ("name", .obj [
      ("de", jsonOfOpt g.code.DisplayNameDE),
      ("en", jsonOfOpt g.code.DisplayNameEN),
      ("fr", jsonOfOpt g.code.DisplayNameFR),
      ("it", jsonOfOpt g.code.DisplayNameIT),
      ("rm", jsonOfOpt g.code.DisplayNameRM)]),
    ("validFrom", jsonOfOpt g.code.validFrom)]
  if truthyStr g.code.parentCode then
    .obj (base ++ [("parentCode", jsonOfOpt g.code.parentCode)])
  else
    .obj base

/-- `create_codeListEntries_output`. -/
def create_codeListEntries_output (entries : List EntryGroup) : Json :=
  .obj [("data", .arr (entries.map entryJson))]

/-! ### Rendering a document to its byte representation (`json.dump`).
`json.dump` walks the document recursively, emitting keys in dict insertion
order; it embeds no timestamps or other run-dependent data.  The exact
whitespace/escaping details of `json.dump(indent=4, ensure_ascii=False)` do
not matter for any claim; the renderer below performs the same deterministic
traversal compactly. -/

mutual

def renderJson : Json → String
  | .null => "null"
  | .str s => "\"" ++ s ++ "\""
  | .num n => toString n
  | .arr xs => "[" ++ renderJsonList xs ++ "]"
  | .obj kvs => "\x7b" ++ renderJsonObj kvs ++ "\x7d"

def renderJsonList : List Json → String
  | [] => ""
  | [x] => renderJson x
  | x :: y :: rest => renderJson x ++ ", " ++ renderJsonList (y :: rest)

def renderJsonObj : List (String × Json) → String
  | [] => ""
  | [kv] => "\"" ++ kv.1 ++ "\": " ++ renderJson kv.2
  | kv :: x :: rest =>
    "\"" ++ kv.1 ++ "\": " ++ renderJson kv.2 ++ ", " ++ renderJsonObj (x :: rest)

end

/-- `write_to_json`: render both documents of one transformer (the concept
document, then the codelist-entries document). -/
def write_to_json (t : Transformer) : String × String :=
  (renderJson (create_concept_output t.concept t.responsible_person
      t.deputy_person t.version),
   renderJson (create_codeListEntries_output t.codeListEntries))

/-! ### XML input model.  An `ET` element tree is observed by the parser
only through the attributes and children below; `Option` marks attributes
that may be absent (`elem.get` returning `None`).  `concepts` lists the
`.//concept` elements in document order (the recursive `findall`
flattened). -/

/-- A `designation` child of a `concept` element.  `dtype` is its `type`
attribute (`type` is reserved in Lean). -/
structure Designation where
  language : Option String := none
  displayName : Option String := none
  dtype : Option String := none
deriving DecidableEq

/-- A `concept` element of the value set. -/
structure ConceptElem where
  code : Option String := none
  displayName : Option String := none
  level : Option String := none
  codeSystem : Option String := none
  designations : List Designation := []
deriving DecidableEq

/-- A `desc` child of `valueSet`.  `divText = some t` means a nested `div`
element exists and its `.text` is `t` (itself `none` when the div is
empty); `text` is the own `.text` of the `desc` element. -/
structure DescElem where
  language : Option String := none
  divText : Option (Option String) := none
  text : Option String := none
deriving DecidableEq

/-- A `sourceCodeSystem` child of `valueSet`. -/
structure SourceCodeSystem where
  id : Option String := none
  identifierName : Option String := none
deriving DecidableEq

/-- The single `valueSet` element of the document. -/
structure ValueSet where
  name : Option String := none
  id : Option String := none
  sourceCodeSystems : List SourceCodeSystem := []
  descs : List DescElem := []
  concepts : List ConceptElem := []
deriving DecidableEq

/-- The shared lookup branch of both parsers: `get_concept_by_identifier`
returns `None` on failure or a response whose `data` list holds records
with an optional `id`.  The guard (`full_concept` truthy with a truthy `data` list)
takes the first record; a truthy id is adopted, anything else marks the
concept as new. -/
def lookupNewConcept (c : concept) (new0 : Bool)
    (res : Option (List (Option String))) : concept × Bool :=
  match res with
  | some (r :: _) => if truthyStr r then ({ c with id := r }, new0) else (c, true)
  | some [] => (c, true)
  | none => (c, true)

/-- `text = div.text.strip() if div is not None else desc.text.strip()`:
dereferencing `.strip()` on a `None` text raises (modelled as `.error ()`).-/
def descText (d : DescElem) : Except Unit String :=
  match d.divText with
  | some (some t) => .ok (pyStrip t)
  | some none => .error ()
  | none =>
    match d.text with
    | some t => .ok (pyStrip t)
    | none => .error ()

/-- The loop over the `desc` children of the value set: each description is
assigned into the concept by language tag; a raising `desc` aborts. -/
def applyDescs (c : concept) : List DescElem → Except Unit concept
  | [] => .ok c
  | d :: rest =>
    match descText d with
    | .error e => .error e
    | .ok t =>
      let c1 :=
        if d.language = some "de-CH" then { c with descriptionDE := some t }
        else if d.language = some "en-US" then { c with descriptionEN := some t }
        else if d.language = some "fr-CH" then { c with descriptionFR := some t }
        else if d.language = some "it-CH" then { c with descriptionIT := some t }
        else c
      applyDescs c1 rest

/-- The `code_system_mapping` dict (`id → identifierName`, later entries
overwriting earlier ones) queried with `.get` (missing key gives `None`). -/
def csLookup (m : List SourceCodeSystem) (k : Option String) : Option String :=
  match m.reverse.find? (fun s => s.id == k) with
  | some s => s.identifierName
  | none => none

/-- The body of the loop over nested `designation` elements:
a `preferred` designation sets the Preferred synonym text and (except for
en-US) overwrites the display name of the code; a `synonym` designation sets
only the Acceptable synonym text. -/
def applyDesignation (st : Code × Synonym × Synonym) (d : Designation) :
    Code × Synonym × Synonym :=
  let code := st.1
  let ps := st.2.1
  let acc := st.2.2
  if d.dtype = some "preferred" then
    if d.language = some "de-CH" then
      ({ code with DisplayNameDE := d.displayName },
       { ps with Text_DE := d.displayName }, acc)
    else if d.language = some "en-US" then
      (code, { ps with Text_EN := d.displayName }, acc)
    else if d.language = some "fr-CH" then
      ({ code with DisplayNameFR := d.displayName },
       { ps with Text_FR := d.displayName }, acc)
    else if d.language = some "it-CH" then
      ({ code with DisplayNameIT := d.displayName },
       { ps with Text_IT := d.displayName }, acc)
    else if d.language = some "rm-CH" then
      ({ code with DisplayNameRM := d.displayName },
       { ps with Text_RM := d.displayName }, acc)
    else st
  else if d.dtype = some "synonym" then
    if d.language = some "de-CH" then
      (code, ps, { acc with Text_DE := d.displayName })
    else if d.language = some "en-US" then
      (code, ps, { acc with Text_EN := d.displayName })
    else if d.language = some "fr-CH" then
      (code, ps, { acc with Text_FR := d.displayName })
    else if d.language = some "it-CH" then
      (code, ps, { acc with Text_IT := d.displayName })
    else if d.language = some "rm-CH" then
      (code, ps, { acc with Text_RM := d.displayName })
    else st
  else st

/-- The body of the loop over the recursively found `concept` elements
for one element, given the current parent (`self.isParent`) *before*
this element is examined. -/
def xmlEntry (cm : List SourceCodeSystem) (isParent : Option String)
    (validFrom : String) (e : ConceptElem) : EntryGroup :=
  let c0 : Code :=
    { Code := e.code, validFrom := some validFrom,
      DisplayNameDE := e.displayName, DisplayNameEN := e.displayName,
      DisplayNameFR := e.displayName, DisplayNameIT := e.displayName,
      DisplayNameRM := e.displayName }
  let c1 := if e.level = some "0" then c0 else { c0 with parentCode := isParent }
  let st := e.designations.foldl applyDesignation
    (c1, Synonym.init "Preferred", Synonym.init "Acceptable")
  let csName := csLookup cm e.codeSystem
  { code := st.1,
    codeSystem :=
      { Title := csName, Text_EN := csName, Text_DE := csName,
        Text_FR := csName, Text_IT := csName, Text_RM := csName,
        Identifier := e.codeSystem },
    periodStart := { Period.init "start" with Date := some DEFAULT_PERIOD_START },
    periodEnd := { Period.init "end" with Date := some DEFAULT_PERIOD_END },
    synonymPS := st.2.1,
    synonymAS := some st.2.2 }

/-- The parent-tracking state update: a level equal to `"0"` remembers the
code of this element as the current parent. -/
def parentStep (p : Option String) (e : ConceptElem) : Option String :=
  if e.level = some "0" then e.code else p

/-- The whole concept-element loop, threading `self.isParent` (initially
`None`). -/
def xmlEntriesLoop (cm : List SourceCodeSystem) (validFrom : String) :
    Option String → List ConceptElem → List EntryGroup
  | _, [] => []
  | isParent, e :: rest =>
    xmlEntry cm isParent validFrom e ::
      xmlEntriesLoop cm validFrom (parentStep isParent e) rest

/-- `process_xml` on the (present) `valueSet` element.  `lookup` is the
external `get_concept_by_identifier` collaborator, keyed by the `id`
attribute.  Mirrors the statement order of the source; `self.concept` is only
assigned inside the concept loop, so it keeps its prior value when the
document has no `concept` element. -/
def process_xml (t : Transformer) (vs : ValueSet)
    (lookup : Option String → Option (List (Option String))) :
    Except Unit Transformer :=
  let c0 : concept := { name := vs.name }
  let cb := lookupNewConcept c0 t.new_concept (lookup vs.id)
  let c2 : concept := { cb.1 with identifier := vs.id, validFrom := some t.validFrom }
  match applyDescs c2 vs.descs with
  | .error e => .error e
  | .ok c3 =>
    let entries := xmlEntriesLoop vs.sourceCodeSystems t.validFrom none vs.concepts
    let t2 : Transformer :=
      { t with
        fileExtension := some "xml",
        new_concept := cb.2,
        codeListEntries := t.codeListEntries ++ entries,
        concept := if vs.concepts.isEmpty then t.concept else c3 }
    .ok t2

/-! ### CSV parser (`process_csv`).  The file is observed as: the first
cell of row 1, the header row 2, and the remaining data rows. -/

/-- A parsed CSV file as `csv.reader` yields it to `process_csv` (the model
assumes the two header rows are present; an empty file is the fatal
Malformed-Input case outside every claim). -/
structure CsvFile where
  firstCell : String
  headerRow : List String
  dataRows : List (List String)
deriving DecidableEq

/-- The Python substring test `pat in s`, on character lists. -/
def hasSub (pat : List Char) : List Char → Bool
  | [] => pat.isPrefixOf []
  | c :: rest => pat.isPrefixOf (c :: rest) || hasSub pat rest

/-- The Python test `pat in s` on strings. -/
def strContains (s pat : String) : Bool :=
  hasSub pat.toList s.toList

/-- The literal head of the name pattern. -/
def litValueSet : List Char := "Value Set ".toList

/-- The literal tail of the name pattern. -/
def litSpDash : List Char := " -".toList

/-- The lazy group `(.*?)` followed by the literal ` -`: the shortest run of
non-newline characters after which ` -` matches (regex `.` does not cross a
newline). -/
def lazyCapture : List Char → Option (List Char)
  | [] => if litSpDash.isPrefixOf ([] : List Char) then some [] else none
  | c :: rest =>
    if litSpDash.isPrefixOf (c :: rest) then some []
    else if c = '\n' then none
    else (lazyCapture rest).map (fun g => c :: g)

/-- One anchored attempt of the search for the name pattern: the literal
head, then the lazy group, then the literal tail. -/
def matchNameAt (cs : List Char) : Option String :=
  if litValueSet.isPrefixOf cs then
    (lazyCapture (cs.drop litValueSet.length)).map (fun g => String.mk g)
  else none

/-- `re.search` semantics: try every start position left to right, return
group 1 of the first position where the whole pattern matches. -/
def searchName : List Char → Option String
  | [] => matchNameAt []
  | c :: rest =>
    match matchNameAt (c :: rest) with
    | some s => some s
    | none => searchName rest

/-- Group 1 of `name_match`: searching the name pattern in the first row. -/
def extractName (s : String) : Option String :=
  searchName s.toList

/-- The literal head of the identifier pattern. -/
def litDashSp : List Char := "- ".toList

/-- A digit or a dot, the character class of the identifier pattern. -/
def oidChar (c : Char) : Bool :=
  c.isDigit || c = '.'

/-- One anchored attempt of the identifier pattern: the literal dash-space
followed by a non-empty greedy run of digits and dots. -/
def matchIdAt (cs : List Char) : Option String :=
  if litDashSp.isPrefixOf cs then
    let run := (cs.drop litDashSp.length).takeWhile oidChar
    if run.isEmpty then none else some (String.mk run)
  else none

/-- `re.search` for the identifier pattern: first matching start wins. -/
def searchId : List Char → Option String
  | [] => matchIdAt []
  | c :: rest =>
    match matchIdAt (c :: rest) with
    | some s => some s
    | none => searchId rest

/-- Group 1 of `identifier_match`: searching the identifier pattern in the
first row. -/
def extractIdentifier (s : String) : Option String :=
  searchId s.toList

/-- One header cell matches a (language, kind) pair when it contains both
tags as substrings (`"de-CH" in x and "preferred" in x`). -/
def cellMatches (lang kind : String) (x : String) : Bool :=
  strContains x lang && strContains x kind

/-- The Designation/Language Index Resolver:
`next((i for i, x in enumerate(index_row) if lang in x and kind in x), None)`. -/
def resolveIndex (row : List String) (lang kind : String) : Option Nat :=
  row.findIdx? (cellMatches lang kind)

/-- The ten resolved column indices of `process_csv` (suffix `ps` =
preferred, `as` = synonym/acceptable, as in the source variable names). -/
structure CsvIndices where
  DEps : Option Nat
  ENps : Option Nat
  ITps : Option Nat
  RMps : Option Nat
  FRps : Option Nat
  DEas : Option Nat
  ENas : Option Nat
  ITas : Option Nat
  RMas : Option Nat
  FRas : Option Nat
deriving DecidableEq

/-- Lines 119-129 of the source: resolve all ten indices from row 2. -/
def resolveIndices (index_row : List String) : CsvIndices :=
  { DEps := resolveIndex index_row "de-CH" "preferred",
    ENps := resolveIndex index_row "en-US" "preferred",
    ITps := resolveIndex index_row "it-CH" "preferred",
    RMps := resolveIndex index_row "rm-CH" "preferred",
    FRps := resolveIndex index_row "fr-CH" "preferred",
    DEas := resolveIndex index_row "de-CH" "synonym",
    ENas := resolveIndex index_row "en-US" "synonym",
    ITas := resolveIndex index_row "it-CH" "synonym",
    RMas := resolveIndex index_row "rm-CH" "synonym",
    FRas := resolveIndex index_row "fr-CH" "synonym" }

/-- `row[i]`: Python raises IndexError past the end (the Out-of-Range
failure), modelled as `.error ()`. -/
def getCell (row : List String) (i : Nat) : Except Unit String :=
  match row.get? i with
  | some s => .ok s
  | none => .error ()

/-- `if index is not None: obj.set_X(row[index])` — an absent index skips
the combination entirely; a present index reads the row (which may raise). -/
def setIfIdx {α : Type} (oi : Option Nat) (row : List String)
    (upd : α → String → α) (a : α) : Except Unit α :=
  match oi with
  | none => .ok a
  | some i =>
    match getCell row i with
    | .error e => .error e
    | .ok v => .ok (upd a v)

/-- The per-data-row body of `process_csv` (lines 131-184): build the Code,
CodeSystem, the Preferred and Acceptable synonyms and the two periods. -/
def processCsvRow (idx : CsvIndices) (validFrom : String) (row : List String) :
    Except Unit EntryGroup := do
  let cell2 ← getCell row 2
  let cell3 ← getCell row 3
  let code0 : Code :=
    { Code := some cell2, DisplayNameEN := some cell3,
      validFrom := some validFrom }
  let code1 ← setIfIdx idx.DEps row
    (fun c v => { c with DisplayNameDE := some v }) code0
  let code2 ← setIfIdx idx.FRps row
    (fun c v => { c with DisplayNameFR := some v }) code1
  let code3 ← setIfIdx idx.ITps row
    (fun c v => { c with DisplayNameIT := some v }) code2
  let code4 ← setIfIdx idx.RMps row
    (fun c v => { c with DisplayNameRM := some v }) code3
  let cell5 ← getCell row 5
  let cell4 ← getCell row 4
  let codeSystem : CodeSystem :=
    { Title := some cell5, Text_DE := some cell5, Text_FR := some cell5,
      Text_IT := some cell5, Text_EN := some cell5, Text_RM := some cell5,
      Identifier := some cell4 }
  let ps0 := Synonym.init "Preferred"
  let ps1 ← setIfIdx idx.ENps row (fun s v => { s with Text_EN := some v }) ps0
  let ps2 ← setIfIdx idx.DEps row (fun s v => { s with Text_DE := some v }) ps1
  let ps3 ← setIfIdx idx.FRps row (fun s v => { s with Text_FR := some v }) ps2
  let ps4 ← setIfIdx idx.ITps row (fun s v => { s with Text_IT := some v }) ps3
  let ps5 ← setIfIdx idx.RMps row (fun s v => { s with Text_RM := some v }) ps4
  let as0 := Synonym.init "Acceptable"
  let as1 ← setIfIdx idx.ENas row (fun s v => { s with Text_EN := some v }) as0
  let as2 ← setIfIdx idx.DEas row (fun s v => { s with Text_DE := some v }) as1
  let as3 ← setIfIdx idx.FRas row (fun s v => { s with Text_FR := some v }) as2
  let as4 ← setIfIdx idx.ITas row (fun s v => { s with Text_IT := some v }) as3
  let as5 ← setIfIdx idx.RMas row (fun s v => { s with Text_RM := some v }) as4
  .ok { code := code4, codeSystem := codeSystem,
        periodStart := { Period.init "start" with Date := some DEFAULT_PERIOD_START },
        periodEnd := { Period.init "end" with Date := some DEFAULT_PERIOD_END },
        synonymPS := ps5, synonymAS := some as5 }

/-- `process_csv`.  `lookup` is the external collaborator keyed by the
extracted OID.  As in the source, `self.concept` (with its `validFrom`) is
only assigned inside the data-row loop, so zero data rows leave the
default concept of the transformer in place; `self.new_concept` is decided
before the loop from the lookup alone. -/
def process_csv (t : Transformer) (f : CsvFile)
    (lookup : String → Option (List (Option String))) :
    Except Unit Transformer :=
  let c0 : concept := {}
  let c1 :=
    match extractName f.firstCell with
    | some n => { c0 with name := some n }
    | none => c0
  let cb :=
    match extractIdentifier f.firstCell with
    | some oid =>
      lookupNewConcept { c1 with identifier := some oid } t.new_concept (lookup oid)
    | none => (c1, t.new_concept)
  let idx := resolveIndices f.headerRow
  match f.dataRows.mapM (processCsvRow idx t.validFrom) with
  | .error e => .error e
  | .ok entries =>
    let t2 : Transformer :=
      { t with
        fileExtension := some "csv",
        new_concept := cb.2,
        codeListEntries := t.codeListEntries ++ entries,
        concept :=
          if f.dataRows.isEmpty then t.concept
          else { cb.1 with validFrom := some t.validFrom } }
    .ok t2

/-! ### Orchestrator (`main`): the per-file loop.  Only `.csv`/`.xml` files
reach the loop body; the normalized concept name (`process_filename`) is
taken as given since no claim depends on the filename regexes. -/

/-- One input file of the batch, already dispatched by extension, carrying
its normalized concept name. -/
inductive SrcFile where
  | csvF (conceptName : String) (content : CsvFile)
  | xmlF (conceptName : String) (content : ValueSet)
deriving DecidableEq

/-- The command-line arguments the loop body consumes. -/
structure Args where
  responsible_key : String
  deputy_key : String
  date_valid_from : String
  version : Option String
  newFlag : Bool

/-- The transformer `main` constructs for one file. -/
def initTransformer (a : Args) : Transformer :=
  AD_init a.responsible_key a.deputy_key a.date_valid_from a.newFlag a.version

/-- `new_filename`: `<name>_<id>_transformed.json` when the concept id is
truthy, else `<name>_transformed.json`. -/
def outFilename (conceptName : String) (cid : Option String) : String :=
  match cid with
  | some i =>
    if i = "" then conceptName ++ "_transformed.json"
    else conceptName ++ "_" ++ i ++ "_transformed.json"
  | none => conceptName ++ "_transformed.json"

/-- The pair of JSON files written for one successfully processed input. -/
structure Written where
  filename : String
  conceptDoc : String
  codelistDoc : String
deriving DecidableEq

/-- The loop body of `main` for one file: construct the transformer, parse
(which may raise), derive the output name, render and write both documents.
A parser error propagates (there is no handler in the loop). -/
def processFile (a : Args)
    (lookup : Option String → Option (List (Option String))) :
    SrcFile → Except Unit Written
  | .csvF name content =>
    match process_csv (initTransformer a) content (fun oid => lookup (some oid)) with
    | .error e => .error e
    | .ok t =>
      let docs := write_to_json t
      .ok { filename := outFilename name t.concept.id,
            conceptDoc := docs.1, codelistDoc := docs.2 }
  | .xmlF name content =>
    match process_xml (initTransformer a) content lookup with
    | .error e => .error e
    | .ok t =>
      let docs := write_to_json t
      .ok { filename := outFilename name t.concept.id,
            conceptDoc := docs.1, codelistDoc := docs.2 }

/-- The `for filename in os.listdir(input_folder)` loop.  The body has no
exception handler, so the first raising file ends the run: the result is
the list of outputs actually written before the exception together with a
flag recording whether the loop was aborted by an uncaught error. -/
def runBatch (a : Args)
    (lookup : Option String → Option (List (Option String))) :
    List SrcFile → List Written × Bool
  | [] => ([], false)
  | f :: rest =>
    match processFile a lookup f with
    | .ok w =>
      let tail := runBatch a lookup rest
      (w :: tail.1, tail.2)
    | .error _ => ([], true)

/-! ### Spec-side observation functions used by the theorem statements. -/

/-- The last designation of kind `preferred` for a given language tag, if
any (the loop applies designations in order, so the last one wins). -/
def lastPrefFor (lang : String) : List Designation → Option Designation
  | [] => none
  | d :: rest =>
    match lastPrefFor lang rest with
    | some x => some x
    | none =>
      if d.dtype = some "preferred" ∧ d.language = some lang then some d else none

/-- "Non-empty after trimming" for an optional text (an absent text counts
as empty). -/
def nonEmptyTrim : Option String → Bool
  | none => false
  | some s => pyStrip s != ""

/-- The language keys of the `text` object of an annotation. -/
def textKeys (a : Json) : List String :=
  match objGet a "text" with
  | some (.obj kvs) => kvs.map (fun kv => kv.1)
  | _ => []

/-- An annotation is *the Acceptable designation* when its `type` is
`Designation` and its identifier is the fixed Acceptable id. -/
def isAcceptableAnnot (a : Json) : Prop :=
  objGet a "type" = some (.str "Designation") ∧
    objGet a "identifier" = some (.str "900000000000549004")

/-- Whether the CSV lookup phase marks the concept as new: an extracted
identifier whose lookup yields no truthy first id. -/
def csvLookupMiss (f : CsvFile)
    (lookup : String → Option (List (Option String))) : Bool :=
  match extractIdentifier f.firstCell with
  | none => false
  | some oid =>
    match lookup oid with
    | some (r :: _) => !truthyStr r
    | some [] => true
    | none => true

/-- Whether the XML lookup phase marks the concept as new. -/
def xmlLookupMiss (vs : ValueSet)
    (lookup : Option String → Option (List (Option String))) : Bool :=
  match lookup vs.id with
  | some (r :: _) => !truthyStr r
  | some [] => true
  | none => true

/-! ### Concrete inputs used by witnesses and counterexamples. -/

/-- A non-root concept element before any level-0 element. -/
def exElem0 : ConceptElem :=
  { code := some "X1", displayName := some "first", level := some "1" }

/-- A level-0 (root) concept element. -/
def exElem1 : ConceptElem :=
  { code := some "A", displayName := some "root", level := some "0" }

/-- A follower element without a `level` attribute. -/
def exElem2 : ConceptElem :=
  { code := some "X2", displayName := some "child" }

/-- A concept element exercising the designation rules. -/
def exElemDesig : ConceptElem :=
  { code := some "C", displayName := some "base", level := some "0",
    designations := [
      { language := some "de-CH", displayName := some "DEpref", dtype := some "preferred" },
      { language := some "en-US", displayName := some "ENpref", dtype := some "preferred" },
      { language := some "fr-CH", displayName := some "FRsyn", dtype := some "synonym" }] }

/-- An entry group with a mixed Acceptable designation (blank, whitespace
and substantive texts). -/
def exGroup : EntryGroup :=
  { code := { Code := some "42", parentCode := none, validFrom := some "2024-01-01" },
    codeSystem := { Title := some "CS", Identifier := some "csid" },
    periodStart := { Period.init "start" with Date := some DEFAULT_PERIOD_START },
    periodEnd := { Period.init "end" with Date := some DEFAULT_PERIOD_END },
    synonymPS := Synonym.init "Preferred",
    synonymAS := some { Synonym.init "Acceptable" with
      Text_DE := some "  ", Text_EN := some "syn", Text_RM := none } }

/-- Command-line arguments used by concrete runs. -/
def exArgs : Args :=
  { responsible_key := "PGR", deputy_key := "SNE",
    date_valid_from := "2024-01-01", version := some "2.0.0", newFlag := false }

/-- A CSV first-row cell from which both regexes extract. -/
def exFirstCell : String := "Value Set Foo - 1.2.3"

/-- A CSV file with both header rows but no data rows. -/
def exCsvNoRows : CsvFile :=
  { firstCell := exFirstCell, headerRow := ["a", "de-CH preferred"], dataRows := [] }

/-- A CSV file whose single data row is too short (IndexError on
`row[2]`). -/
def exCsvShortRow : CsvFile :=
  { firstCell := exFirstCell, headerRow := [], dataRows := [["only", "two"]] }

/-- A lookup that succeeds with a truthy registry id. -/
def exLookupHit : String → Option (List (Option String)) :=
  fun _ => some [some "R1"]

/-- A lookup collaborator that never finds anything. -/
def exLookupNone : Option String → Option (List (Option String)) :=
  fun _ => none

/-- The transformer state after running `process_csv` on `exCsvNoRows`
with the `-n` flag set and a successful lookup. -/
def exCsvRunFlag : Transformer :=
  match process_csv (initTransformer { exArgs with newFlag := true }) exCsvNoRows
      exLookupHit with
  | .ok t => t
  | .error _ => initTransformer exArgs

/-- The transformer state after the same run without the `-n` flag. -/
def exCsvRunNoFlag : Transformer :=
  match process_csv (initTransformer exArgs) exCsvNoRows exLookupHit with
  | .ok t => t
  | .error _ => initTransformer exArgs

/-- A `desc` element with no `div` and no direct text (the Null-Text
condition). -/
def exDescNull : DescElem :=
  { language := some "de-CH" }

/-- A value set containing a Null-Text `desc` and one concept element. -/
def exVsNullDesc : ValueSet :=
  { name := some "VS", id := some "1.2",
    descs := [exDescNull],
    concepts := [exElem1] }

/-- The bad and good files of the batch counterexample. -/
def exBadFile : SrcFile := .csvF "bad" exCsvShortRow

/-- A benign CSV file that processes alone. -/
def exGoodFile : SrcFile := .csvF "good" exCsvNoRows

/-! ## Theorems -/

/-! ### Helper lemmas about the designation fold -/

theorem applyDesignation_parentCode (st : Code × Synonym × Synonym)
    (d : Designation) : (applyDesignation st d).1.parentCode = st.1.parentCode := by
  unfold applyDesignation
  split_ifs <;> rfl

theorem foldl_applyDesignation_parentCode (ds : List Designation)
    (st : Code × Synonym × Synonym) :
    (ds.foldl applyDesignation st).1.parentCode = st.1.parentCode := by
  induction ds generalizing st with
  | nil => rfl
  | cons d ds ih => rw [List.foldl_cons, ih, applyDesignation_parentCode]

theorem xmlEntry_parentCode (cm : List SourceCodeSystem)
    (isParent : Option String) (vf : String) (e : ConceptElem) :
    (xmlEntry cm isParent vf e).code.parentCode =
      if e.level = some "0" then none else isParent := by
  show (e.designations.foldl applyDesignation _).1.parentCode = _
  rw [foldl_applyDesignation_parentCode]
  split_ifs <;> rfl

theorem xmlEntriesLoop_getElem? (cm : List SourceCodeSystem) (vf : String) :
    ∀ (elems : List ConceptElem) (p : Option String) (i : Nat),
      (xmlEntriesLoop cm vf p elems)[i]? =
        (elems[i]?).map (fun e => xmlEntry cm ((elems.take i).foldl parentStep p) vf e)
  | [], _, i => by simp [xmlEntriesLoop]
  | e :: rest, p, 0 => by simp [xmlEntriesLoop]
  | e :: rest, p, i + 1 => by
    simp only [xmlEntriesLoop, List.getElem?_cons_succ, List.take_succ_cons,
      List.foldl_cons]
    exact xmlEntriesLoop_getElem? cm vf rest (parentStep p e) i

theorem foldl_parentStep_eq_find? (pre : List ConceptElem) :
    ∀ p : Option String,
      pre.foldl parentStep p =
        match pre.reverse.find? (fun x => decide (x.level = some "0")) with
        | some x => x.code
        | none => p := by
  induction pre with
  | nil => intro p; rfl
  | cons e rest ih =>
    intro p
    rw [List.foldl_cons, ih (parentStep p e)]
    rw [show (e :: rest).reverse = rest.reverse ++ [e] from by simp]
    rw [List.find?_append]
    cases hf : rest.reverse.find? (fun x => decide (x.level = some "0")) with
    | some x => rfl
    | none =>
      unfold parentStep
      by_cases h : e.level = some "0" <;> simp [h, List.find?]

/-- C1: in the XML parser, a `concept` element with `level="0"` never
receives a `parentCode`; each later element up to (but excluding) the next
level-0 element receives the `code` of the last preceding level-0 element
attribute as its `parentCode`; before the first level-0 element, entries
receive none.  The second part ties the loop to `process_xml`: the
entry list of the transformer is exactly the loop output appended to the
prior entries. -/
theorem C1_parent_tracking :
    (∀ (cm : List SourceCodeSystem) (vf : String) (elems : List ConceptElem)
        (i : Nat) (e : ConceptElem), elems[i]? = some e →
      ((xmlEntriesLoop cm vf none elems)[i]?).map (fun g => g.code.parentCode) =
        some (if e.level = some "0" then none
          else ((elems.take i).reverse.find?
              (fun x => decide (x.level = some "0"))).bind ConceptElem.code)) ∧
    (∀ (t : Transformer) (vs : ValueSet)
        (lookup : Option String → Option (List (Option String)))
        (t' : Transformer), process_xml t vs lookup = .ok t' →
      t'.codeListEntries = t.codeListEntries ++
        xmlEntriesLoop vs.sourceCodeSystems t.validFrom none vs.concepts) := by
  constructor
  · intro cm vf elems i e h
    rw [xmlEntriesLoop_getElem? cm vf elems none i, h]
    simp only [Option.map_some']
    rw [xmlEntry_parentCode, foldl_parentStep_eq_find? (elems.take i) none]
    by_cases h0 : e.level = some "0"
    · rw [if_pos h0, if_pos h0]
    · rw [if_neg h0, if_neg h0]
      cases hf : (elems.take i).reverse.find? (fun x => decide (x.level = some "0")) <;>
        rfl
  · intro t vs lookup t' h
    simp only [process_xml] at h
    split at h
    · cases h
    · cases h
      rfl

/-- Witness for C1 at a concrete element list: the entry after the level-0
element `exElem1` receives code `"A"`. -/
theorem C1_parent_tracking_witness :
    ([exElem0, exElem1, exElem2][2]? = some exElem2) ∧
    ((xmlEntriesLoop [] "2024-01-01" none [exElem0, exElem1, exElem2])[2]?).map
        (fun g => g.code.parentCode) =
      some (if exElem2.level = some "0" then none
        else (([exElem0, exElem1, exElem2].take 2).reverse.find?
            (fun x => decide (x.level = some "0"))).bind ConceptElem.code) :=
  ⟨rfl, C1_parent_tracking.1 [] "2024-01-01" [exElem0, exElem1, exElem2] 2 exElem2 rfl⟩

theorem applyDesignation_DE (st : Code × Synonym × Synonym) (d : Designation) :
    (applyDesignation st d).1.DisplayNameDE =
      if d.dtype = some "preferred" ∧ d.language = some "de-CH" then d.displayName
      else st.1.DisplayNameDE := by
  unfold applyDesignation
  split_ifs <;> simp_all

theorem applyDesignation_FR (st : Code × Synonym × Synonym) (d : Designation) :
    (applyDesignation st d).1.DisplayNameFR =
      if d.dtype = some "preferred" ∧ d.language = some "fr-CH" then d.displayName
      else st.1.DisplayNameFR := by
  unfold applyDesignation
  split_ifs <;> simp_all

theorem applyDesignation_IT (st : Code × Synonym × Synonym) (d : Designation) :
    (applyDesignation st d).1.DisplayNameIT =
      if d.dtype = some "preferred" ∧ d.language = some "it-CH" then d.displayName
      else st.1.DisplayNameIT := by
  unfold applyDesignation
  split_ifs <;> simp_all

theorem applyDesignation_RM (st : Code × Synonym × Synonym) (d : Designation) :
    (applyDesignation st d).1.DisplayNameRM =
      if d.dtype = some "preferred" ∧ d.language = some "rm-CH" then d.displayName
      else st.1.DisplayNameRM := by
  unfold applyDesignation
  split_ifs <;> simp_all

theorem applyDesignation_EN (st : Code × Synonym × Synonym) (d : Designation) :
    (applyDesignation st d).1.DisplayNameEN = st.1.DisplayNameEN := by
  unfold applyDesignation
  split_ifs <;> rfl

theorem foldl_applyDesignation_DE (ds : List Designation)
    (st : Code × Synonym × Synonym) :
    (ds.foldl applyDesignation st).1.DisplayNameDE =
      match lastPrefFor "de-CH" ds with
      | some d => d.displayName
      | none => st.1.DisplayNameDE := by
  induction ds generalizing st with
  | nil => rfl
  | cons d ds ih =>
    rw [List.foldl_cons, ih]
    cases hl : lastPrefFor "de-CH" ds with
    | some x => simp [lastPrefFor, hl]
    | none =>
      simp only [lastPrefFor, hl, applyDesignation_DE]
      by_cases hc : d.dtype = some "preferred" ∧ d.language = some "de-CH" <;>
        simp [hc]

theorem foldl_applyDesignation_FR (ds : List Designation)
    (st : Code × Synonym × Synonym) :
    (ds.foldl applyDesignation st).1.DisplayNameFR =
      match lastPrefFor "fr-CH" ds with
      | some d => d.displayName
      | none => st.1.DisplayNameFR := by
  induction ds generalizing st with
  | nil => rfl
  | cons d ds ih =>
    rw [List.foldl_cons, ih]
    cases hl : lastPrefFor "fr-CH" ds with
    | some x => simp [lastPrefFor, hl]
    | none =>
      simp only [lastPrefFor, hl, applyDesignation_FR]
      by_cases hc : d.dtype = some "preferred" ∧ d.language = some "fr-CH" <;>
        simp [hc]

theorem foldl_applyDesignation_IT (ds : List Designation)
    (st : Code × Synonym × Synonym) :
    (ds.foldl applyDesignation st).1.DisplayNameIT =
      match lastPrefFor "it-CH" ds with
      | some d => d.displayName
      | none => st.1.DisplayNameIT := by
  induction ds generalizing st with
  | nil => rfl
  | cons d ds ih =>
    rw [List.foldl_cons, ih]
    cases hl : lastPrefFor "it-CH" ds with
    | some x => simp [lastPrefFor, hl]
    | none =>
      simp only [lastPrefFor, hl, applyDesignation_IT]
      by_cases hc : d.dtype = some "preferred" ∧ d.language = some "it-CH" <;>
        simp [hc]

theorem foldl_applyDesignation_RM (ds : List Designation)
    (st : Code × Synonym × Synonym) :
    (ds.foldl applyDesignation st).1.DisplayNameRM =
      match lastPrefFor "rm-CH" ds with
      | some d => d.displayName
      | none => st.1.DisplayNameRM := by
  induction ds generalizing st with
  | nil => rfl
  | cons d ds ih =>
    rw [List.foldl_cons, ih]
    cases hl : lastPrefFor "rm-CH" ds with
    | some x => simp [lastPrefFor, hl]
    | none =>
      simp only [lastPrefFor, hl, applyDesignation_RM]
      by_cases hc : d.dtype = some "preferred" ∧ d.language = some "rm-CH" <;>
        simp [hc]

theorem foldl_applyDesignation_EN (ds : List Designation)
    (st : Code × Synonym × Synonym) :
    (ds.foldl applyDesignation st).1.DisplayNameEN = st.1.DisplayNameEN := by
  induction ds generalizing st with
  | nil => rfl
  | cons d ds ih => rw [List.foldl_cons, ih, applyDesignation_EN]

/-- C2: in the XML parser all five display names start as the value of the
`displayName` attribute; the English name is never overwritten by a
designation; each of de/fr/it/rm is overwritten exactly by the (last)
nested `preferred` designation of that language, and by nothing else —
in particular `synonym` designations never change a display name. -/
theorem C2_displayName_rules (cm : List SourceCodeSystem)
    (isParent : Option String) (vf : String) (e : ConceptElem) :
    ((xmlEntry cm isParent vf e).code.DisplayNameEN = e.displayName) ∧
    ((xmlEntry cm isParent vf e).code.DisplayNameDE =
      match lastPrefFor "de-CH" e.designations with
      | some d => d.displayName
      | none => e.displayName) ∧
    ((xmlEntry cm isParent vf e).code.DisplayNameFR =
      match lastPrefFor "fr-CH" e.designations with
      | some d => d.displayName
      | none => e.displayName) ∧
    ((xmlEntry cm isParent vf e).code.DisplayNameIT =
      match lastPrefFor "it-CH" e.designations with
      | some d => d.displayName
      | none => e.displayName) ∧
    ((xmlEntry cm isParent vf e).code.DisplayNameRM =
      match lastPrefFor "rm-CH" e.designations with
      | some d => d.displayName
      | none => e.displayName) := by
  have hen : (xmlEntry cm isParent vf e).code.DisplayNameEN = e.displayName := by
    show (e.designations.foldl applyDesignation _).1.DisplayNameEN = _
    rw [foldl_applyDesignation_EN]
    split_ifs <;> rfl
  refine ⟨hen, ?_, ?_, ?_, ?_⟩
  · show (e.designations.foldl applyDesignation _).1.DisplayNameDE = _
    rw [foldl_applyDesignation_DE]
    cases lastPrefFor "de-CH" e.designations with
    | some x => rfl
    | none => split_ifs <;> rfl
  · show (e.designations.foldl applyDesignation _).1.DisplayNameFR = _
    rw [foldl_applyDesignation_FR]
    cases lastPrefFor "fr-CH" e.designations with
    | some x => rfl
    | none => split_ifs <;> rfl
  · show (e.designations.foldl applyDesignation _).1.DisplayNameIT = _
    rw [foldl_applyDesignation_IT]
    cases lastPrefFor "it-CH" e.designations with
    | some x => rfl
    | none => split_ifs <;> rfl
  · show (e.designations.foldl applyDesignation _).1.DisplayNameRM = _
    rw [foldl_applyDesignation_RM]
    cases lastPrefFor "rm-CH" e.designations with
    | some x => rfl
    | none => split_ifs <;> rfl

/-! ### Helper lemmas about the Acceptable designation serialization -/

theorem keepText_eq_nonEmptyTrim (t : Option String) :
    keepText t = nonEmptyTrim t := by
  cases t with
  | none => rfl
  | some s =>
    by_cases hs : s = ""
    · subst hs; decide
    · simp [keepText, nonEmptyTrim, hs]

theorem acceptableTextDict_isEmpty (s : Synonym) :
    (acceptableTextDict s).isEmpty =
      !(keepText s.Text_DE || keepText s.Text_EN || keepText s.Text_FR ||
        keepText s.Text_IT || keepText s.Text_RM) := by
  unfold acceptableTextDict
  split_ifs <;> simp_all

theorem acceptableTextDict_keys (s : Synonym) :
    (("de" ∈ (acceptableTextDict s).map (fun kv => kv.1)) ↔ keepText s.Text_DE = true) ∧
    (("en" ∈ (acceptableTextDict s).map (fun kv => kv.1)) ↔ keepText s.Text_EN = true) ∧
    (("fr" ∈ (acceptableTextDict s).map (fun kv => kv.1)) ↔ keepText s.Text_FR = true) ∧
    (("it" ∈ (acceptableTextDict s).map (fun kv => kv.1)) ↔ keepText s.Text_IT = true) ∧
    (("rm" ∈ (acceptableTextDict s).map (fun kv => kv.1)) ↔ keepText s.Text_RM = true) ∧
    (∀ k ∈ (acceptableTextDict s).map (fun kv => kv.1),
      k ∈ (["de", "en", "fr", "it", "rm"] : List String)) := by
  unfold acceptableTextDict
  split_ifs <;> simp_all

theorem not_isAcceptableAnnot_base (g : EntryGroup)
    (hPS : g.synonymPS.identifier = "900000000000548007") :
    ∀ a ∈ baseAnnotations g, ¬ isAcceptableAnnot a := by
  intro a ha hacc
  obtain ⟨ht, hi⟩ := hacc
  rcases ha with _ | ⟨_, _ | ⟨_, _ | ⟨_, _ | ⟨_, hend⟩⟩⟩⟩
  · rw [show objGet (codeSystemAnnotJson g.codeSystem) "type" =
        some (.str "CodeSystem") from rfl] at ht
    injection ht with h1
    injection h1 with h2
    exact absurd h2 (by decide)
  · rw [show objGet (periodAnnotJson g.periodEnd) "type" =
        some (.str "Period") from rfl] at ht
    injection ht with h1
    injection h1 with h2
    exact absurd h2 (by decide)
  · rw [show objGet (periodAnnotJson g.periodStart) "type" =
        some (.str "Period") from rfl] at ht
    injection ht with h1
    injection h1 with h2
    exact absurd h2 (by decide)
  · rw [show objGet (preferredAnnotJson g.synonymPS) "identifier" =
        some (.str g.synonymPS.identifier) from rfl] at hi
    injection hi with h1
    injection h1 with h2
    rw [hPS] at h2
    exact absurd h2 (by decide)
  · cases hend

theorem isAcceptableAnnot_acceptable (s : Synonym)
    (hAI : s.identifier = "900000000000549004") :
    isAcceptableAnnot (acceptableAnnotJson s) := by
  refine ⟨rfl, ?_⟩
  rw [show objGet (acceptableAnnotJson s) "identifier" =
      some (.str s.identifier) from rfl, hAI]

theorem textKeys_acceptable (s : Synonym) :
    textKeys (acceptableAnnotJson s) = (acceptableTextDict s).map (fun kv => kv.1) :=
  rfl

/-- C3: the Acceptable designation annotation appears in a serialized
annotations of an entry iff at least one of its five language texts is
non-empty after trimming; and its `text` mapping then contains exactly the
languages with a non-empty trimmed text.  The identifier hypotheses state
what both parsers guarantee by construction (`Synonym.init "Preferred"` /
`Synonym.init "Acceptable"`). -/
theorem C3_acceptable_designation (g : EntryGroup) (s : Synonym)
    (hAS : g.synonymAS = some s)
    (hPS : g.synonymPS.identifier = "900000000000548007")
    (hAI : s.identifier = "900000000000549004") :
    ((∃ a ∈ entryAnnotations g, isAcceptableAnnot a) ↔
      (nonEmptyTrim s.Text_DE || nonEmptyTrim s.Text_EN || nonEmptyTrim s.Text_FR ||
        nonEmptyTrim s.Text_IT || nonEmptyTrim s.Text_RM) = true) ∧
    (∀ a ∈ entryAnnotations g, isAcceptableAnnot a →
      (("de" ∈ textKeys a) ↔ nonEmptyTrim s.Text_DE = true) ∧
      (("en" ∈ textKeys a) ↔ nonEmptyTrim s.Text_EN = true) ∧
      (("fr" ∈ textKeys a) ↔ nonEmptyTrim s.Text_FR = true) ∧
      (("it" ∈ textKeys a) ↔ nonEmptyTrim s.Text_IT = true) ∧
      (("rm" ∈ textKeys a) ↔ nonEmptyTrim s.Text_RM = true) ∧
      (∀ k ∈ textKeys a, k ∈ (["de", "en", "fr", "it", "rm"] : List String))) := by
  have hkeys := acceptableTextDict_keys s
  have hor : (keepText s.Text_DE || keepText s.Text_EN || keepText s.Text_FR ||
      keepText s.Text_IT || keepText s.Text_RM) =
      (nonEmptyTrim s.Text_DE || nonEmptyTrim s.Text_EN || nonEmptyTrim s.Text_FR ||
        nonEmptyTrim s.Text_IT || nonEmptyTrim s.Text_RM) := by
    simp [keepText_eq_nonEmptyTrim]
  have hie : (acceptableTextDict s).isEmpty =
      !(nonEmptyTrim s.Text_DE || nonEmptyTrim s.Text_EN || nonEmptyTrim s.Text_FR ||
        nonEmptyTrim s.Text_IT || nonEmptyTrim s.Text_RM) := by
    rw [acceptableTextDict_isEmpty, hor]
  unfold entryAnnotations
  rw [hAS]
  by_cases hOr : (nonEmptyTrim s.Text_DE || nonEmptyTrim s.Text_EN ||
      nonEmptyTrim s.Text_FR || nonEmptyTrim s.Text_IT ||
      nonEmptyTrim s.Text_RM) = true
  case neg =>
    have hall : (nonEmptyTrim s.Text_DE || nonEmptyTrim s.Text_EN ||
        nonEmptyTrim s.Text_FR || nonEmptyTrim s.Text_IT ||
        nonEmptyTrim s.Text_RM) = false := by
      simpa using hOr
    have hempty : (acceptableTextDict s).isEmpty = true := by rw [hie, hall]; rfl
    simp only [hempty, if_true]
    constructor
    · rw [hall]
      constructor
      · rintro ⟨a, ha, hacc⟩
        exact absurd hacc (not_isAcceptableAnnot_base g hPS a ha)
      · intro h
        cases h
    · intro a ha hacc
      exact absurd hacc (not_isAcceptableAnnot_base g hPS a ha)
  case pos =>
    have hsome := hOr
    have hempty : (acceptableTextDict s).isEmpty = false := by rw [hie, hOr]; rfl
    simp only [hempty, Bool.false_eq_true, if_false]
    constructor
    · rw [hsome]
      constructor
      · intro _
        rfl
      · intro _
        exact ⟨acceptableAnnotJson s, by simp, isAcceptableAnnot_acceptable s hAI⟩
    · intro a ha hacc
      rcases List.mem_append.mp ha with hbase | hlast
      · exact absurd hacc (not_isAcceptableAnnot_base g hPS a hbase)
      · have ha' : a = acceptableAnnotJson s := by simpa using hlast
        subst ha'
        rw [textKeys_acceptable]
        simp only [keepText_eq_nonEmptyTrim] at hkeys
        exact hkeys

/-- Witness for C3 at a concrete entry group: only `en` survives (blank
`de`, absent `rm`, empty `fr`/`it`). -/
theorem C3_acceptable_designation_witness :
    (exGroup.synonymAS = some { Synonym.init "Acceptable" with
        Text_DE := some "  ", Text_EN := some "syn", Text_RM := none }) ∧
    ((∃ a ∈ entryAnnotations exGroup, isAcceptableAnnot a) ↔
      (nonEmptyTrim (some "  ") || nonEmptyTrim (some "syn") || nonEmptyTrim (some "") ||
        nonEmptyTrim (some "") || nonEmptyTrim (none : Option String)) = true) ∧
    (∀ a ∈ entryAnnotations exGroup, isAcceptableAnnot a →
      (("de" ∈ textKeys a) ↔ nonEmptyTrim (some "  ") = true) ∧
      (("en" ∈ textKeys a) ↔ nonEmptyTrim (some "syn") = true) ∧
      (("fr" ∈ textKeys a) ↔ nonEmptyTrim (some "") = true) ∧
      (("it" ∈ textKeys a) ↔ nonEmptyTrim (some "") = true) ∧
      (("rm" ∈ textKeys a) ↔ nonEmptyTrim (none : Option String) = true) ∧
      (∀ k ∈ textKeys a, k ∈ (["de", "en", "fr", "it", "rm"] : List String))) := by
  refine ⟨rfl, ?_⟩
  exact C3_acceptable_designation exGroup _ rfl rfl rfl

/-- C4: the `annotations` array of every serialized entry starts with
exactly CodeSystem, Period(end), Period(start), Designation(Preferred) in
that order; anything after position 3 is the conditional Acceptable
designation (so there is at most one, appended last); and the `text`
mappings of the CodeSystem annotation and the Preferred designation always
carry all five languages, never pruned. -/
theorem C4_annotation_order (g : EntryGroup) :
    (∃ a0, (entryAnnotations g)[0]? = some a0 ∧
      objGet a0 "type" = some (.str "CodeSystem") ∧
      objGet a0 "identifier" = some (jsonOfOpt g.codeSystem.Identifier) ∧
      textKeys a0 = ["de", "en", "fr", "it", "rm"]) ∧
    (∃ a1, (entryAnnotations g)[1]? = some a1 ∧
      objGet a1 "type" = some (.str "Period") ∧
      objGet a1 "title" = some (.str g.periodEnd.Title) ∧
      objGet a1 "text" = some (.obj [("en", jsonOfOpt g.periodEnd.Date)])) ∧
    (∃ a2, (entryAnnotations g)[2]? = some a2 ∧
      objGet a2 "type" = some (.str "Period") ∧
      objGet a2 "title" = some (.str g.periodStart.Title) ∧
      objGet a2 "text" = some (.obj [("en", jsonOfOpt g.periodStart.Date)])) ∧
    (∃ a3, (entryAnnotations g)[3]? = some a3 ∧
      objGet a3 "type" = some (.str "Designation") ∧
      objGet a3 "identifier" = some (.str g.synonymPS.identifier) ∧
      textKeys a3 = ["de", "en", "fr", "it", "rm"]) ∧
    (∀ a ∈ (entryAnnotations g).drop 4, ∃ s, g.synonymAS = some s ∧
      (acceptableTextDict s).isEmpty = false ∧ a = acceptableAnnotJson s) ∧
    (entryAnnotations g).length ≤ 5 := by
  unfold entryAnnotations baseAnnotations
  cases hAS : g.synonymAS with
  | none =>
    refine ⟨⟨_, rfl, rfl, rfl, rfl⟩, ⟨_, rfl, rfl, rfl, rfl⟩,
      ⟨_, rfl, rfl, rfl, rfl⟩, ⟨_, rfl, rfl, rfl, rfl⟩, ?_, by simp⟩
    intro a ha
    cases ha
  | some s =>
    by_cases he : (acceptableTextDict s).isEmpty = true
    · simp only [he, if_true]
      refine ⟨⟨_, rfl, rfl, rfl, rfl⟩, ⟨_, rfl, rfl, rfl, rfl⟩,
        ⟨_, rfl, rfl, rfl, rfl⟩, ⟨_, rfl, rfl, rfl, rfl⟩, ?_, by simp⟩
      intro a ha
      cases ha
    · have he' : (acceptableTextDict s).isEmpty = false := by
        simpa using he
      simp only [he', Bool.false_eq_true, if_false]
      refine ⟨⟨_, rfl, rfl, rfl, rfl⟩, ⟨_, rfl, rfl, rfl, rfl⟩,
        ⟨_, rfl, rfl, rfl, rfl⟩, ⟨_, rfl, rfl, rfl, rfl⟩, ?_, by simp⟩
      intro a ha
      have ha' : a = acceptableAnnotJson s := by
        simpa using ha
      exact ⟨s, rfl, he', ha'⟩

/-- C8: for every header row and every (language, kind) pair, the resolver
returns the index of the first (leftmost) cell containing both tags as
substrings; `none` exactly when no cell matches; and an absent index makes
the population step a no-op rather than an error. -/
theorem C8_index_resolution (row : List String) (lang kind : String) :
    (∀ i : Nat, resolveIndex row lang kind = some i ↔
      ∃ h : i < row.length, cellMatches lang kind (row.get ⟨i, h⟩) = true ∧
        ∀ j : Nat, ∀ hj : j < i,
          cellMatches lang kind (row.get ⟨j, Nat.lt_trans hj h⟩) = false) ∧
    (resolveIndex row lang kind = none ↔ ∀ c ∈ row, cellMatches lang kind c = false) ∧
    (∀ (upd : Code → String → Code) (c : Code), setIfIdx none row upd c = .ok c) := by
  refine ⟨?_, ?_, fun upd c => rfl⟩
  · intro i
    rw [resolveIndex, List.findIdx?_eq_some_iff_getElem]
    constructor
    · rintro ⟨h, hp, hall⟩
      exact ⟨h, hp, fun j hj => by simpa using hall j hj⟩
    · rintro ⟨h, hp, hall⟩
      exact ⟨h, hp, fun j hj => by simpa using hall j hj⟩
  · rw [resolveIndex, List.findIdx?_eq_none_iff]

/-- C9: serialization is deterministic — rendering equal concepts and equal
entry lists yields byte-identical JSON text (the embedding is pure: object
key order is the fixed insertion order and no run-dependent data enters
the output). -/
theorem C9_serialization_deterministic (c1 c2 : concept)
    (es1 es2 : List EntryGroup) (r d : Option String) (v : String)
    (hc : c1 = c2) (he : es1 = es2) :
    renderJson (create_concept_output c1 r d v) =
        renderJson (create_concept_output c2 r d v) ∧
      renderJson (create_codeListEntries_output es1) =
        renderJson (create_codeListEntries_output es2) := by
  subst hc
  subst he
  exact ⟨rfl, rfl⟩

/-- Witness for C9 at a concrete concept and entry list. -/
theorem C9_serialization_deterministic_witness :
    renderJson (create_concept_output {} (some "e") none "1.0.0") =
        renderJson (create_concept_output {} (some "e") none "1.0.0") ∧
      renderJson (create_codeListEntries_output [exGroup]) =
        renderJson (create_codeListEntries_output [exGroup]) :=
  C9_serialization_deterministic {} {} [exGroup] [exGroup] (some "e") none
    "1.0.0" rfl rfl

/-- C10: a CSV input with both header rows but no data rows leaves the
default concept of the transformer in place — the emitted concept document has
null name, identifier and validFrom, the resolved registry id is
discarded, and the output filename carries no id — because `self.concept`
is only assigned inside the per-row loop. -/
theorem C10_empty_csv_default_concept (a : Args) (f : CsvFile)
    (lookup : String → Option (List (Option String)))
    (hname : (extractName f.firstCell).isSome = true)
    (hid : (extractIdentifier f.firstCell).isSome = true)
    (hrows : f.dataRows = []) :
    ∃ t', process_csv (initTransformer a) f lookup = .ok t' ∧
      t'.concept = ({} : concept) ∧
      t'.concept.id = none ∧
      (∀ n : String, outFilename n t'.concept.id = n ++ "_transformed.json") ∧
      jpath (create_concept_output t'.concept t'.responsible_person
          t'.deputy_person t'.version) ["data", "name"] =
        some (.obj [("de", .null), ("en", .null), ("fr", .null), ("it", .null)]) ∧
      jpath (create_concept_output t'.concept t'.responsible_person
          t'.deputy_person t'.version) ["data", "identifier"] = some .null ∧
      jpath (create_concept_output t'.concept t'.responsible_person
          t'.deputy_person t'.version) ["data", "validFrom"] = some .null := by
  obtain ⟨fc, hrow, dr⟩ := f
  simp only at hrows
  subst hrows
  exact ⟨_, rfl, rfl, rfl, fun n => rfl, rfl, rfl, rfl⟩

/-- Witness for C10: a concrete header-only CSV whose first row yields both
a name and an identifier, with a successful lookup. -/
theorem C10_empty_csv_default_concept_witness :
    ∃ t', process_csv (initTransformer exArgs) exCsvNoRows exLookupHit = .ok t' ∧
      t'.concept = ({} : concept) ∧
      t'.concept.id = none ∧
      (∀ n : String, outFilename n t'.concept.id = n ++ "_transformed.json") ∧
      jpath (create_concept_output t'.concept t'.responsible_person
          t'.deputy_person t'.version) ["data", "name"] =
        some (.obj [("de", .null), ("en", .null), ("fr", .null), ("it", .null)]) ∧
      jpath (create_concept_output t'.concept t'.responsible_person
          t'.deputy_person t'.version) ["data", "identifier"] = some .null ∧
      jpath (create_concept_output t'.concept t'.responsible_person
          t'.deputy_person t'.version) ["data", "validFrom"] = some .null :=
  C10_empty_csv_default_concept exArgs exCsvNoRows exLookupHit rfl rfl rfl

/-! ### C5: batch behaviour on a failing file -/

/-- C5 counterexample: the benign file alone produces one output, but
behind a failing file it produces none — the unhandled error aborts the
loop instead of continuing with the remaining files. -/
theorem C5_batch_abort_counterexample :
    (runBatch exArgs exLookupNone [exGoodFile]).1.length = 1 ∧
    (runBatch exArgs exLookupNone [exBadFile, exGoodFile]).1.length = 0 ∧
    (runBatch exArgs exLookupNone [exBadFile, exGoodFile]).2 = true :=
  ⟨rfl, rfl, rfl⟩

/-- C5 amended: when the parsing of a file fails, no JSON is written for that
file, but the error is not contained: the batch ends there and the
remaining files are never processed. -/
theorem C5_abort_on_error (a : Args)
    (lookup : Option String → Option (List (Option String)))
    (f : SrcFile) (rest : List SrcFile)
    (h : processFile a lookup f = .error ()) :
    runBatch a lookup (f :: rest) = ([], true) := by
  unfold runBatch
  rw [h]

/-- Witness for the amended C5 at the concrete failing file. -/
theorem C5_abort_on_error_witness :
    runBatch exArgs exLookupNone [exBadFile, exGoodFile] = ([], true) :=
  C5_abort_on_error exArgs exLookupNone exBadFile [exGoodFile] rfl

/-! ### C6: effect of the `-n` flag on `new_concept` -/

/-- C6 counterexample: same input, same (successful) lookup, the two runs
differ in `new_concept` purely because of the `-n` flag — the flag is
never cleared by the core, so it does affect the final value. -/
theorem C6_flag_counterexample :
    ¬ ((process_csv (initTransformer { exArgs with newFlag := true })
          exCsvNoRows exLookupHit).map Transformer.new_concept =
        (process_csv (initTransformer exArgs) exCsvNoRows
          exLookupHit).map Transformer.new_concept) := by
  intro h
  rw [show (process_csv (initTransformer { exArgs with newFlag := true })
        exCsvNoRows exLookupHit).map Transformer.new_concept =
      Except.ok true from rfl] at h
  rw [show (process_csv (initTransformer exArgs) exCsvNoRows
        exLookupHit).map Transformer.new_concept = Except.ok false from rfl] at h
  injection h with h1
  cases h1

theorem lookupNewConcept_snd (c : concept) (b : Bool)
    (res : Option (List (Option String))) :
    (lookupNewConcept c b res).2 =
      (b || match res with
        | some (r :: _) => !truthyStr r
        | some [] => true
        | none => true) := by
  unfold lookupNewConcept
  cases res with
  | none => simp
  | some data =>
    cases data with
    | nil => simp
    | cons r rs =>
      by_cases hr : truthyStr r = true
      · simp [hr]
      · have hr' : truthyStr r = false := by simpa using hr
        simp [hr']

/-- C6 amended: the final `new_concept` is the disjunction of the initial flag and
the lookup miss: the lookup alone decides it only when `-n` is absent;
when `-n` was passed, the value stays `true` even on a successful lookup
(the core never resets it to `false`). -/
theorem C6_flag_or_lookup :
    (∀ (t : Transformer) (f : CsvFile)
        (lookup : String → Option (List (Option String))) (t' : Transformer),
      process_csv t f lookup = .ok t' →
      t'.new_concept = (t.new_concept || csvLookupMiss f lookup)) ∧
    (∀ (t : Transformer) (vs : ValueSet)
        (lookup : Option String → Option (List (Option String))) (t' : Transformer),
      process_xml t vs lookup = .ok t' →
      t'.new_concept = (t.new_concept || xmlLookupMiss vs lookup)) := by
  constructor
  · intro t f lookup t' h
    simp only [process_csv] at h
    split at h
    · cases h
    · cases h
      show (match extractIdentifier f.firstCell with
        | some oid => lookupNewConcept _ t.new_concept (lookup oid)
        | none => (_, t.new_concept)).2 = _
      unfold csvLookupMiss
      cases hx : extractIdentifier f.firstCell with
      | none => simp [hx]
      | some oid => simp only [hx, lookupNewConcept_snd]
  · intro t vs lookup t' h
    simp only [process_xml] at h
    split at h
    · cases h
    · cases h
      show (lookupNewConcept _ t.new_concept (lookup vs.id)).2 = _
      unfold xmlLookupMiss
      rw [lookupNewConcept_snd]

/-- Witness for the amended C6 at the concrete run with the flag set and a
successful lookup. -/
theorem C6_flag_or_lookup_witness :
    exCsvRunFlag.new_concept =
      ((initTransformer { exArgs with newFlag := true }).new_concept ||
        csvLookupMiss exCsvNoRows exLookupHit) :=
  C6_flag_or_lookup.1 (initTransformer { exArgs with newFlag := true })
    exCsvNoRows exLookupHit exCsvRunFlag rfl

/-! ### C7: a Null-Text `desc` element -/

/-- C7 counterexample: a value set with a `desc` that has neither a `div`
nor direct text does not yield a parse result at all — the whole file
fails, its concept elements are never processed. -/
theorem C7_nulltext_counterexample :
    ¬ ∃ t', process_xml (initTransformer exArgs) exVsNullDesc exLookupNone =
      .ok t' := by
  rintro ⟨t', h⟩
  rw [show process_xml (initTransformer exArgs) exVsNullDesc exLookupNone =
      .error () from rfl] at h
  cases h

theorem applyDescs_error (c : concept) (descs : List DescElem)
    (h : ∃ d ∈ descs, d.divText = some none ∨ (d.divText = none ∧ d.text = none)) :
    applyDescs c descs = .error () := by
  induction descs generalizing c with
  | nil => simp at h
  | cons d rest ih =>
    obtain ⟨d0, hd0, hbad⟩ := h
    rcases List.mem_cons.mp hd0 with heq | hmem
    · subst heq
      have hd : descText d0 = .error () := by
        rcases hbad with h1 | ⟨h1, h2⟩
        · simp [descText, h1]
        · simp [descText, h1, h2]
      simp [applyDescs, hd]
    · cases hh : descText d with
      | error e => simp [applyDescs, hh]
      | ok t0 =>
        simp only [applyDescs, hh]
        exact ih _ ⟨d0, hmem, hbad⟩

/-- C7 amended: a `desc` whose `div` (when present) carries no text, or
with no `div` and no direct text, raises out of `process_xml`: the whole
file is aborted, not just that one description. -/
theorem C7_nulltext_aborts_file (t : Transformer) (vs : ValueSet)
    (lookup : Option String → Option (List (Option String)))
    (h : ∃ d ∈ vs.descs, d.divText = some none ∨ (d.divText = none ∧ d.text = none)) :
    process_xml t vs lookup = .error () := by
  simp only [process_xml]
  rw [applyDescs_error _ _ h]

/-- Witness for the amended C7 at the concrete Null-Text document. -/
theorem C7_nulltext_aborts_file_witness :
    process_xml (initTransformer exArgs) exVsNullDesc exLookupNone = .error () :=
  C7_nulltext_aborts_file (initTransformer exArgs) exVsNullDesc exLookupNone
    ⟨exDescNull, List.mem_singleton.mpr rfl, Or.inr ⟨rfl, rfl⟩⟩

end I14Y
